import Mathlib

/-!
Shallow embedding of the `GGroupsEntityProvider` catalog entity provider:
configuration validation, group fetching (one direct call, or one call per
query expression), allow-list filtering, entity construction, and the single
"full" mutation submitted to the host sink.  The directory API and the sink
are modelled explicitly: `run` returns the ordered trace of directory API
calls it issued, the entity list it built, the sink mutations it applied,
and its outcome (normal return or thrown error).
-/

namespace GGroups

-- Helper for `kebabCase`: maximal alphanumeric runs of the input, in order.
def splitWordsAux : List Char → List Char → List (List Char)
  | [], cur => if cur.isEmpty then [] else [cur.reverse]
  | c :: cs, cur =>
    if c.isAlphanum then splitWordsAux cs (c :: cur)
    else if cur.isEmpty then splitWordsAux cs []
    else cur.reverse :: splitWordsAux cs []

/-- Model of lodash `kebabCase` (an external library function): words split
on non-alphanumeric boundaries, lowercased, joined with hyphens.  The claims
use it only through equalities between its applications, never through its
internal word-splitting rules. -/
def kebabCase (s : String) : String :=
  String.intercalate "-" ((splitWordsAux s.data []).map fun w => String.mk (w.map Char.toLower))

-- Helper for `localPart`: the characters before the first '@'.
def localPartAux : List Char → List Char
  | [] => []
  | c :: cs => if c = '@' then [] else c :: localPartAux cs

/-- Model of the JavaScript expression `email.split('@')[0]`: the substring
before the first `'@'`, or the whole string when no `'@'` occurs. -/
def localPart (s : String) : String := String.mk (localPartAux s.data)

/-- Directory-side group record (`admin_directory_v1.Schema$Group`), with the
fields the provider reads (each read through an `as string` cast). -/
structure RemoteGroup where
  id : String
  name : String
  description : String
  email : String
deriving DecidableEq

/-- Directory-side member record (`Schema$Member`), with the fields read. -/
structure RemoteMember where
  id : String
  email : String
deriving DecidableEq

/-- Response of `directoryApiClient.groups.list`: the optional `data.groups`
array and the resolved request URL (`request.responseURL`). -/
structure GroupsListResponse where
  groups : Option (List RemoteGroup)
  responseURL : String
deriving DecidableEq

/-- Response of `directoryApiClient.members.list`: optional `data.members`. -/
structure MembersListResponse where
  members : Option (List RemoteMember)
deriving DecidableEq

/-- The remote directory service: each operation either returns a response or
throws (modelled as `Except` with a message). -/
structure DirectoryApi where
  groupsList : String → Option String → Except String GroupsListResponse
  membersList : String → Except String MembersListResponse

/-- One issued directory API call, recorded in the order of issuance. -/
inductive ApiCall where
  | groupsList (customer : String) (query : Option String)
  | membersList (groupKey : String)
deriving DecidableEq

def ApiCall.isGroupsList : ApiCall → Bool
  | .groupsList _ _ => true
  | .membersList _ => false

/-- The two provenance annotation values each built entity carries
(ANNOTATION_LOCATION and ANNOTATION_ORIGIN_LOCATION). -/
structure EntityMeta where
  location : String
  originLocation : String
deriving DecidableEq

/-- A built Group entity (metadata and spec fields flattened). -/
structure GroupEntityData where
  uid : String
  name : String
  description : String
  tags : List String
  meta : EntityMeta
  type : String
  displayName : String
  email : String
  members : List String
  children : List String
deriving DecidableEq

/-- A built User entity (metadata and spec fields flattened). -/
structure UserEntityData where
  uid : String
  name : String
  tags : List String
  meta : EntityMeta
  email : String
  memberOf : List String
deriving DecidableEq

inductive Entity where
  | group : GroupEntityData → Entity
  | user : UserEntityData → Entity
deriving DecidableEq

def Entity.location : Entity → String
  | .group g => g.meta.location
  | .user u => u.meta.location

def Entity.originLocation : Entity → String
  | .group g => g.meta.originLocation
  | .user u => u.meta.originLocation

def Entity.uid : Entity → String
  | .group g => g.uid
  | .user u => u.uid

def Entity.isGroup : Entity → Bool
  | .group _ => true
  | .user _ => false

/-- One `applyMutation` invocation on the host sink. -/
structure Mutation where
  type : String
  entities : List (Entity × Option String)
deriving DecidableEq

/-- The errors `run` can throw. -/
inductive RunError where
  | connectionNotInitialized
  | clientNotInitialized
  | customerIdConfigError
  | groupsAndQueryBothDefined
  | emptyQueryArray
  | apiError (msg : String)
deriving DecidableEq

/-- The provider's mutable lifecycle state: whether `connect` has stored a
sink connection, and whether the async client initialization has completed. -/
structure ProviderState where
  connected : Bool
  clientReady : Bool
deriving DecidableEq

/-- The configuration values read by `run`.  `customerId = none` models
`config.getString` throwing (key missing or not a string); the two optional
lists model `getOptionalStringArray` results, where JavaScript truthiness of
a present (possibly empty) array corresponds to `isSome`. -/
structure ProviderConfig where
  customerId : Option String
  groups : Option (List String)
  query : Option (List String)
deriving DecidableEq

/-- Everything observable about one `run` invocation: the ordered directory
API call trace, the entity list built (the local `entities` variable at the
moment the run ended), the sink mutations applied, and the outcome. -/
structure RunResult where
  calls : List ApiCall
  entities : List Entity
  mutations : List Mutation
  outcome : Except RunError Unit

def RunResult.succeeded (r : RunResult) : Bool :=
  match r.outcome with
  | .ok _ => true
  | .error _ => false

/-- The UserEntity built for one member: uid from the member id, name the
local part of the member email, the two provenance annotations from the
given URL, memberOf the owning group entity's (kebab-cased) name. -/
def buildUserEntity (url : String) (groupName : String) (m : RemoteMember) : UserEntityData :=
  { uid := m.id
    name := localPart m.email
    tags := ["google-groups"]
    meta := { location := "ggroups:" ++ url, originLocation := "ggroups:" ++ url }
    email := m.email
    memberOf := [groupName] }

/-- The GroupEntity built for one group, before its members list is filled
in (the source pushes member names into `spec.members` afterwards). -/
def buildGroupEntity (url : String) (g : RemoteGroup) : GroupEntityData :=
  { uid := g.id
    name := kebabCase g.name
    description := g.description
    tags := ["google-groups"]
    meta := { location := "ggroups:" ++ url, originLocation := "ggroups:" ++ url }
    type := "team"
    displayName := g.name
    email := g.email
    members := []
    children := [] }

/-- The block of entities one loop iteration appends for a group whose
members fetch returned `ms`: one UserEntity per member, then the GroupEntity
whose members list holds those users' names. -/
def groupBlock (url : String) (g : RemoteGroup) (ms : List RemoteMember) : List Entity :=
  let users := ms.map (buildUserEntity url (kebabCase g.name))
  users.map Entity.user ++ [Entity.group { buildGroupEntity url g with members := users.map (fun u => u.name) }]

/-- The per-group loop over the surviving groups: for each group in turn,
issue its members.list call and append its entity block.  Returns the
member-list call trace, the entities built before any failure, and the
failure (if any) that aborted the loop. -/
def processGroups (api : DirectoryApi) (url : String) :
    List RemoteGroup → List ApiCall × List Entity × Option String
  | [] => ([], [], none)
  | g :: gs =>
    match api.membersList g.id with
    | Except.error e => ([ApiCall.membersList g.id], [], some e)
    | Except.ok resp =>
      match processGroups api url gs with
      | (calls, rest, err) =>
        (ApiCall.membersList g.id :: calls, groupBlock url g (resp.members.getD []) ++ rest, err)

/-- The query-driven fetch loop: one groups.list call per query expression in
order, concatenating each response's groups (a response with no groups field
contributing nothing) and retaining the most recent response URL. -/
def fetchGroupsQueryAux (api : DirectoryApi) (customer : String)
    (acc : List RemoteGroup) (url : String) :
    List String → List ApiCall × Except String (List RemoteGroup × String)
  | [] => ([], Except.ok (acc, url))
  | q :: qs =>
    match api.groupsList customer (some q) with
    | Except.error e => ([ApiCall.groupsList customer (some q)], Except.error e)
    | Except.ok resp =>
      match fetchGroupsQueryAux api customer (acc ++ resp.groups.getD []) resp.responseURL qs with
      | (calls, r) => (ApiCall.groupsList customer (some q) :: calls, r)

/-- The run prefix up to and including the fetch of groups: lifecycle and
configuration guards, then either the single direct groups.list call (whose
optional groups field is kept as-is) or the per-query loop.  Returns the
call trace and, on success, the (possibly absent) group array together with
the last response's resolved URL. -/
def fetchPhase (st : ProviderState) (cfg : ProviderConfig) (api : DirectoryApi) :
    List ApiCall × Except RunError (Option (List RemoteGroup) × String) :=
  if !st.connected then ([], Except.error RunError.connectionNotInitialized)
  else if !st.clientReady then ([], Except.error RunError.clientNotInitialized)
  else
    match cfg.customerId with
    | none => ([], Except.error RunError.customerIdConfigError)
    | some customerId =>
      if cfg.groups.isSome ∧ cfg.query.isSome then
        ([], Except.error RunError.groupsAndQueryBothDefined)
      else if cfg.query = some [] then
        ([], Except.error RunError.emptyQueryArray)
      else
        match cfg.query with
        | none =>
          ([ApiCall.groupsList customerId none],
            match api.groupsList customerId none with
            | Except.error e => Except.error (RunError.apiError e)
            | Except.ok resp => Except.ok (resp.groups, resp.responseURL))
        | some qs =>
          match fetchGroupsQueryAux api customerId [] "" qs with
          | (calls, Except.error e) => (calls, Except.error (RunError.apiError e))
          | (calls, Except.ok (gs, url)) => (calls, Except.ok (some gs, url))

/-- The surviving group sequence the loop iterates over: the allow-list
filter applied when the groups config is present (even when empty), then
`|| []` turning an absent array into the empty sequence. -/
def survivors (cfg : ProviderConfig) (gg : Option (List RemoteGroup)) : List RemoteGroup :=
  match cfg.groups with
  | some allow => (gg.map (List.filter fun g => allow.contains g.email)).getD []
  | none => gg.getD []

/-- The run suffix after a successful fetch: allow-list filtering, the
per-group loop, the empty-output early return, and otherwise the single
"full" mutation pairing each entity with its location annotation value. -/
def finish (calls : List ApiCall) (cfg : ProviderConfig)
    (gg : Option (List RemoteGroup)) (url : String) (api : DirectoryApi) : RunResult :=
  match processGroups api url (survivors cfg gg) with
  | (mcalls, es, some e) =>
    { calls := calls ++ mcalls, entities := es, mutations := []
      outcome := Except.error (RunError.apiError e) }
  | (mcalls, es, none) =>
    if es.isEmpty then
      { calls := calls ++ mcalls, entities := es, mutations := [], outcome := Except.ok () }
    else
      { calls := calls ++ mcalls, entities := es
        mutations := [{ type := "full", entities := es.map fun e => (e, some e.location) }]
        outcome := Except.ok () }

/-- The whole `run` procedure. -/
def run (st : ProviderState) (cfg : ProviderConfig) (api : DirectoryApi) : RunResult :=
  match fetchPhase st cfg api with
  | (calls, Except.error e) =>
    { calls := calls, entities := [], mutations := [], outcome := Except.error e }
  | (calls, Except.ok (gg, url)) => finish calls cfg gg url api

/-- The groups one query expression contributes: the response's groups field
(empty when absent or when the call fails — the failing case never being
reached by `run`, which aborts on the first failure). -/
def queryGroups (api : DirectoryApi) (customer : String) (q : String) : List RemoteGroup :=
  match api.groupsList customer (some q) with
  | Except.ok resp => resp.groups.getD []
  | Except.error _ => []

/-! Concrete fixtures used by witnesses and counterexamples. -/

def g1 : RemoteGroup :=
  { id := "gid1", name := "Group One", description := "first", email := "g1@x.com" }

def g2 : RemoteGroup :=
  { id := "gid2", name := "Group Two", description := "second", email := "g2@x.com" }

def m1 : RemoteMember := { id := "mid1", email := "jdoe@example.com" }

def st0 : ProviderState := { connected := true, clientReady := true }

/-- Directory service fixture: the direct listing returns both groups; query
"a" returns only `g1`; any other query returns a response without a groups
field; `g1` has one member, other groups none. -/
def api0 : DirectoryApi :=
  { groupsList := fun _ q =>
      match q with
      | none => Except.ok { groups := some [g1, g2], responseURL := "url0" }
      | some "a" => Except.ok { groups := some [g1], responseURL := "urlA" }
      | some _ => Except.ok { groups := none, responseURL := "urlB" }
    membersList := fun k =>
      if k = "gid1" then Except.ok { members := some [m1] }
      else Except.ok { members := some [] } }

def cfg0 : ProviderConfig := { customerId := some "cust", groups := none, query := none }

/-- Configuration fixture with a two-expression query list. -/
def cfgQ : ProviderConfig := { customerId := some "cust", groups := none, query := some ["a", "b"] }

/-- Configuration fixture with an allow-list admitting only `g1`. -/
def cfgA : ProviderConfig :=
  { customerId := some "cust", groups := some ["g1@x.com"], query := none }

/-- Configuration fixture with both filter lists present (invalid). -/
def cfgBoth : ProviderConfig :=
  { customerId := some "cust", groups := some ["g1@x.com"], query := some ["a"] }

/-- Configuration fixture with a present-but-empty allow-list. -/
def cfgEmptyAllow : ProviderConfig :=
  { customerId := some "cust", groups := some [], query := none }

/-- Directory service fixture whose members call fails for `g2`, so a run
fails midway through the per-group loop. -/
def apiFail : DirectoryApi :=
  { groupsList := fun _ _ => Except.ok { groups := some [g1, g2], responseURL := "url0" }
    membersList := fun k =>
      if k = "gid1" then Except.ok { members := some [m1] }
      else Except.error "members fetch failed" }

/-- Directory service fixture whose group-listing response carries no groups
field. -/
def apiNoGroups : DirectoryApi :=
  { groupsList := fun _ _ => Except.ok { groups := none, responseURL := "urlN" }
    membersList := fun _ => Except.ok { members := some [] } }

/-! Helper lemmas about the embedding. -/

theorem run_fetch_error (st : ProviderState) (cfg : ProviderConfig) (api : DirectoryApi)
    (calls : List ApiCall) (e : RunError) (h : fetchPhase st cfg api = (calls, Except.error e)) :
    run st cfg api =
      { calls := calls, entities := [], mutations := [], outcome := Except.error e } := by
  unfold run
  rw [h]

theorem run_fetch_ok (st : ProviderState) (cfg : ProviderConfig) (api : DirectoryApi)
    (calls : List ApiCall) (gg : Option (List RemoteGroup)) (url : String)
    (h : fetchPhase st cfg api = (calls, Except.ok (gg, url))) :
    run st cfg api = finish calls cfg gg url api := by
  unfold run
  rw [h]

theorem finish_calls (calls : List ApiCall) (cfg : ProviderConfig)
    (gg : Option (List RemoteGroup)) (url : String) (api : DirectoryApi) :
    (finish calls cfg gg url api).calls =
      calls ++ (processGroups api url (survivors cfg gg)).1 := by
  unfold finish
  rcases hp : processGroups api url (survivors cfg gg) with ⟨mcalls, es, err⟩
  cases err
  · by_cases he : es.isEmpty <;> simp [he]
  · rfl

theorem finish_entities (calls : List ApiCall) (cfg : ProviderConfig)
    (gg : Option (List RemoteGroup)) (url : String) (api : DirectoryApi) :
    (finish calls cfg gg url api).entities =
      (processGroups api url (survivors cfg gg)).2.1 := by
  unfold finish
  rcases hp : processGroups api url (survivors cfg gg) with ⟨mcalls, es, err⟩
  cases err
  · by_cases he : es.isEmpty <;> simp [he]
  · rfl

theorem finish_outcome_ok (calls : List ApiCall) (cfg : ProviderConfig)
    (gg : Option (List RemoteGroup)) (url : String) (api : DirectoryApi) :
    (finish calls cfg gg url api).outcome = Except.ok () ↔
      (processGroups api url (survivors cfg gg)).2.2 = none := by
  unfold finish
  rcases hp : processGroups api url (survivors cfg gg) with ⟨mcalls, es, err⟩
  cases err
  · by_cases he : es.isEmpty <;> simp [he]
  · simp

theorem finish_mutations_err (calls : List ApiCall) (cfg : ProviderConfig)
    (gg : Option (List RemoteGroup)) (url : String) (api : DirectoryApi) (e : String)
    (h : (processGroups api url (survivors cfg gg)).2.2 = some e) :
    (finish calls cfg gg url api).mutations = [] := by
  unfold finish
  rcases hp : processGroups api url (survivors cfg gg) with ⟨mcalls, es, err⟩
  rw [hp] at h
  cases err
  · cases h
  · rfl

theorem finish_mutations_ok (calls : List ApiCall) (cfg : ProviderConfig)
    (gg : Option (List RemoteGroup)) (url : String) (api : DirectoryApi)
    (h : (processGroups api url (survivors cfg gg)).2.2 = none) :
    (finish calls cfg gg url api).mutations =
      if (processGroups api url (survivors cfg gg)).2.1.isEmpty then []
      else [{ type := "full",
              entities := (processGroups api url (survivors cfg gg)).2.1.map
                fun e => (e, some e.location) }] := by
  unfold finish
  rcases hp : processGroups api url (survivors cfg gg) with ⟨mcalls, es, err⟩
  rw [hp] at h
  subst h
  by_cases he : es.isEmpty <;> simp [he]

theorem processGroups_no_groupsList (api : DirectoryApi) (url : String) (gs : List RemoteGroup) :
    (processGroups api url gs).1.filter ApiCall.isGroupsList = [] := by
  induction gs with
  | nil => rfl
  | cons g gs ih =>
    cases hm : api.membersList g.id with
    | error e => simp [processGroups, hm, ApiCall.isGroupsList]
    | ok resp =>
      rcases hp : processGroups api url gs with ⟨cs, rest, err⟩
      rw [hp] at ih
      simp [processGroups, hm, hp, ApiCall.isGroupsList, ih]

theorem processGroups_allok (api : DirectoryApi) (url : String) (gs : List RemoteGroup)
    (h : ∀ g ∈ gs, ∃ resp, api.membersList g.id = Except.ok resp) :
    (processGroups api url gs).1 = gs.map (fun g => ApiCall.membersList g.id) ∧
      (processGroups api url gs).2.2 = none := by
  induction gs with
  | nil => exact ⟨rfl, rfl⟩
  | cons g gs ih =>
    obtain ⟨resp, hg⟩ := h g (List.mem_cons_self g gs)
    have ih' := ih fun g' hg' => h g' (List.mem_cons_of_mem g hg')
    rcases hp : processGroups api url gs with ⟨cs, rest, err⟩
    rw [hp] at ih'
    simp only at ih'
    simp only [processGroups, hg, hp, List.map_cons]
    exact ⟨by rw [ih'.1], ih'.2⟩

theorem processGroups_err_of_mem_err (api : DirectoryApi) (url : String)
    (gs : List RemoteGroup) (g : RemoteGroup) (e : String)
    (hg : g ∈ gs) (he : api.membersList g.id = Except.error e) :
    (processGroups api url gs).2.2 ≠ none := by
  induction gs with
  | nil => cases hg
  | cons g' gs ih =>
    cases hm : api.membersList g'.id with
    | error e' => simp [processGroups, hm]
    | ok resp =>
      rcases List.mem_cons.mp hg with rfl | hmem
      · rw [hm] at he; cases he
      · rcases hp : processGroups api url gs with ⟨cs, rest, err⟩
        rw [hp] at ih
        simp [processGroups, hm, hp]
        exact ih hmem

theorem filter_isGroup_users (us : List UserEntityData) :
    (us.map Entity.user).filter Entity.isGroup = [] := by
  induction us with
  | nil => rfl
  | cons u us ih => simp [Entity.isGroup, ih]

theorem groupBlock_filter_isGroup (url : String) (g : RemoteGroup) (ms : List RemoteMember) :
    (groupBlock url g ms).filter Entity.isGroup =
      [Entity.group { buildGroupEntity url g with
        members := ms.map fun m => localPart m.email }] := by
  simp only [groupBlock, List.filter_append, filter_isGroup_users, List.nil_append]
  simp [Entity.isGroup, List.map_map, Function.comp_def, buildUserEntity]

theorem mem_groupBlock_user (url : String) (g : RemoteGroup) (ms : List RemoteMember)
    (m : RemoteMember) (hm : m ∈ ms) :
    Entity.user (buildUserEntity url (kebabCase g.name) m) ∈ groupBlock url g ms := by
  simp only [groupBlock, List.mem_append]
  exact Or.inl (List.mem_map_of_mem Entity.user (List.mem_map_of_mem _ hm))

theorem mem_groupBlock_group (url : String) (g : RemoteGroup) (ms : List RemoteMember) :
    Entity.group { buildGroupEntity url g with
      members := ms.map fun m => localPart m.email } ∈ groupBlock url g ms := by
  simp [groupBlock, List.map_map, Function.comp_def, buildUserEntity]

theorem groupBlock_location (url : String) (g : RemoteGroup) (ms : List RemoteMember)
    (e : Entity) (he : e ∈ groupBlock url g ms) :
    e.location = "ggroups:" ++ url ∧ e.originLocation = "ggroups:" ++ url := by
  simp only [groupBlock, List.mem_append, List.mem_map, List.mem_singleton] at he
  rcases he with ⟨u, ⟨m, _, rfl⟩, rfl⟩ | rfl
  · exact ⟨rfl, rfl⟩
  · exact ⟨rfl, rfl⟩

theorem processGroups_group_uids (api : DirectoryApi) (url : String) (gs : List RemoteGroup)
    (h : (processGroups api url gs).2.2 = none) :
    ((processGroups api url gs).2.1.filter Entity.isGroup).map Entity.uid =
      gs.map RemoteGroup.id := by
  induction gs with
  | nil => rfl
  | cons g gs ih =>
    cases hm : api.membersList g.id with
    | error e => rw [processGroups, hm] at h; cases h
    | ok resp =>
      rcases hp : processGroups api url gs with ⟨cs, rest, err⟩
      rw [processGroups, hm, hp] at h
      simp only at h
      rw [hp] at ih
      have ih' := ih h
      simp only at ih'
      simp only [processGroups, hm, hp, List.map_cons]
      simp only [List.filter_append, List.map_append, groupBlock_filter_isGroup, ih']
      simp [Entity.uid, buildGroupEntity]

theorem processGroups_mem_block (api : DirectoryApi) (url : String) (gs : List RemoteGroup)
    (g : RemoteGroup) (resp : MembersListResponse)
    (hg : g ∈ gs) (hr : api.membersList g.id = Except.ok resp)
    (hok : (processGroups api url gs).2.2 = none) :
    ∃ l₁ l₂, (processGroups api url gs).2.1 =
      l₁ ++ (groupBlock url g (resp.members.getD []) ++ l₂) := by
  induction gs with
  | nil => cases hg
  | cons g' gs ih =>
    cases hm : api.membersList g'.id with
    | error e => rw [processGroups, hm] at hok; cases hok
    | ok resp' =>
      rcases hp : processGroups api url gs with ⟨cs, rest, err⟩
      rw [processGroups, hm, hp] at hok
      simp only at hok
      rcases List.mem_cons.mp hg with rfl | hmem
      · rw [hr] at hm
        injection hm with hmr
        subst hmr
        refine ⟨[], rest, ?_⟩
        simp [processGroups, hr, hp]
      · rw [hp] at ih
        obtain ⟨l₁, l₂, hl⟩ := ih hmem hok
        simp only at hl
        refine ⟨groupBlock url g' (resp'.members.getD []) ++ l₁, l₂, ?_⟩
        simp [processGroups, hm, hp, hl, List.append_assoc]

theorem processGroups_entity_src (api : DirectoryApi) (url : String) (gs : List RemoteGroup)
    (e : Entity) (he : e ∈ (processGroups api url gs).2.1) :
    ∃ g, g ∈ gs ∧ ∃ resp, api.membersList g.id = Except.ok resp ∧
      e ∈ groupBlock url g (resp.members.getD []) := by
  induction gs with
  | nil => cases he
  | cons g' gs ih =>
    cases hm : api.membersList g'.id with
    | error err => rw [processGroups, hm] at he; cases he
    | ok resp =>
      rcases hp : processGroups api url gs with ⟨cs, rest, err⟩
      rw [processGroups, hm, hp] at he
      simp only [List.mem_append] at he
      rcases he with hb | hrest
      · exact ⟨g', List.mem_cons_self g' gs, resp, hm, hb⟩
      · rw [hp] at ih
        obtain ⟨g, hg, resp', hr, hb⟩ := ih hrest
        exact ⟨g, List.mem_cons_of_mem g' hg, resp', hr, hb⟩

theorem fetchGroupsQueryAux_allok (api : DirectoryApi) (customer : String) (qs : List String) :
    ∀ acc url, (∀ q ∈ qs, ∃ resp, api.groupsList customer (some q) = Except.ok resp) →
    ∃ lastUrl, fetchGroupsQueryAux api customer acc url qs =
      (qs.map (fun q => ApiCall.groupsList customer (some q)),
        Except.ok (acc ++ (qs.map (queryGroups api customer)).flatten, lastUrl)) := by
  induction qs with
  | nil =>
    intro acc url _
    exact ⟨url, by simp [fetchGroupsQueryAux]⟩
  | cons q qs ih =>
    intro acc url h
    obtain ⟨resp, hq⟩ := h q (List.mem_cons_self q qs)
    obtain ⟨lastUrl, heq⟩ := ih (acc ++ resp.groups.getD []) resp.responseURL
      (fun q' hq' => h q' (List.mem_cons_of_mem q hq'))
    refine ⟨lastUrl, ?_⟩
    simp only [fetchGroupsQueryAux, hq, heq]
    simp [queryGroups, hq, List.append_assoc]

theorem fetchPhase_direct (st : ProviderState) (cfg : ProviderConfig) (api : DirectoryApi)
    (customerId : String)
    (h1 : st.connected = true) (h2 : st.clientReady = true)
    (h3 : cfg.customerId = some customerId) (h4 : cfg.query = none) :
    fetchPhase st cfg api =
      ([ApiCall.groupsList customerId none],
        match api.groupsList customerId none with
        | Except.error e => Except.error (RunError.apiError e)
        | Except.ok resp => Except.ok (resp.groups, resp.responseURL)) := by
  unfold fetchPhase
  simp [h1, h2, h3, h4]

theorem fetchPhase_query (st : ProviderState) (cfg : ProviderConfig) (api : DirectoryApi)
    (customerId : String) (qs : List String)
    (h1 : st.connected = true) (h2 : st.clientReady = true)
    (h3 : cfg.customerId = some customerId) (h4 : cfg.groups = none)
    (h5 : cfg.query = some qs) (h6 : qs ≠ []) :
    fetchPhase st cfg api =
      (match fetchGroupsQueryAux api customerId [] "" qs with
        | (calls, Except.error e) => (calls, Except.error (RunError.apiError e))
        | (calls, Except.ok (gs, url)) => (calls, Except.ok (some gs, url))) := by
  unfold fetchPhase
  simp [h1, h2, h3, h4, h5, h6]


theorem filter_isGroupsList_map (customer : String) (qs : List String) :
    (qs.map fun q => ApiCall.groupsList customer (some q)).filter ApiCall.isGroupsList =
      qs.map fun q => ApiCall.groupsList customer (some q) := by
  induction qs with
  | nil => rfl
  | cons q qs ih => simp [ApiCall.isGroupsList, ih]

/-! Claim theorems. -/

/-- Claim C1: when a successful run has produced at least one entity, the
sink's applyMutation is invoked exactly once, with a mutation of type "full"
whose entity list pairs every produced entity, in order and exactly once,
with the location key read from that entity's location annotation; a
successful run whose produced entity sequence is empty never invokes the
sink. -/
theorem c1_single_full_mutation (st : ProviderState) (cfg : ProviderConfig) (api : DirectoryApi)
    (h : (run st cfg api).outcome = Except.ok ()) :
    ((run st cfg api).entities ≠ [] →
      (run st cfg api).mutations =
        [{ type := "full",
           entities := (run st cfg api).entities.map fun e => (e, some e.location) }]) ∧
    ((run st cfg api).entities = [] → (run st cfg api).mutations = []) := by
  rcases hf : fetchPhase st cfg api with ⟨calls, r⟩
  cases r with
  | error e =>
    rw [run_fetch_error st cfg api calls e hf] at h
    cases h
  | ok p =>
    rcases p with ⟨gg, url⟩
    have hrun := run_fetch_ok st cfg api calls gg url hf
    rw [hrun] at h ⊢
    have hok := (finish_outcome_ok calls cfg gg url api).mp h
    have hent := finish_entities calls cfg gg url api
    have hmut := finish_mutations_ok calls cfg gg url api hok
    constructor
    · intro hne
      rw [hent] at hne
      rw [hmut, if_neg (by simpa [List.isEmpty_iff] using hne), hent]
    · intro hemp
      rw [hent] at hemp
      rw [hmut, if_pos (by simp [List.isEmpty_iff, hemp])]

/-- Witness for C1: the two-group fixture run succeeds with entities and
submits exactly the one full mutation. -/
theorem c1_single_full_mutation_witness :
    (run st0 cfg0 api0).outcome = Except.ok () ∧
    (((run st0 cfg0 api0).entities ≠ [] →
      (run st0 cfg0 api0).mutations =
        [{ type := "full",
           entities := (run st0 cfg0 api0).entities.map fun e => (e, some e.location) }]) ∧
    ((run st0 cfg0 api0).entities = [] → (run st0 cfg0 api0).mutations = [])) :=
  ⟨rfl, c1_single_full_mutation st0 cfg0 api0 rfl⟩

/-- Claim C2: every member record fetched for a surviving group yields a
UserEntity whose name is the local part of the member's email (the substring
before '@'), whose memberOf list is exactly the kebab-cased name of the
owning group's GroupEntity, and whose name appears in that GroupEntity's
members list; both entities are in the run's output.  (In the embedding
every member carries an email string, mirroring the source's unconditional
`as string` cast.) -/
theorem c2_member_user_entity (st : ProviderState) (cfg : ProviderConfig) (api : DirectoryApi)
    (calls : List ApiCall) (gg : Option (List RemoteGroup)) (url : String)
    (g : RemoteGroup) (mresp : MembersListResponse) (m : RemoteMember)
    (hf : fetchPhase st cfg api = (calls, Except.ok (gg, url)))
    (hok : (run st cfg api).outcome = Except.ok ())
    (hg : g ∈ survivors cfg gg)
    (hr : api.membersList g.id = Except.ok mresp)
    (hm : m ∈ mresp.members.getD []) :
    (buildUserEntity url (kebabCase g.name) m).name = localPart m.email ∧
    (buildUserEntity url (kebabCase g.name) m).memberOf = [kebabCase g.name] ∧
    Entity.user (buildUserEntity url (kebabCase g.name) m) ∈ (run st cfg api).entities ∧
    ∃ ge : GroupEntityData, Entity.group ge ∈ (run st cfg api).entities ∧
      ge.uid = g.id ∧ ge.name = kebabCase g.name ∧
      (buildUserEntity url (kebabCase g.name) m).name ∈ ge.members := by
  have hrun := run_fetch_ok st cfg api calls gg url hf
  rw [hrun] at hok ⊢
  have herr := (finish_outcome_ok calls cfg gg url api).mp hok
  have hent := finish_entities calls cfg gg url api
  obtain ⟨l₁, l₂, hl⟩ :=
    processGroups_mem_block api url (survivors cfg gg) g mresp hg hr herr
  rw [hent, hl]
  refine ⟨rfl, rfl, ?_, ?_⟩
  · have := mem_groupBlock_user url g (mresp.members.getD []) m hm
    simp only [List.mem_append]
    exact Or.inr (Or.inl this)
  · refine ⟨{ buildGroupEntity url g with
      members := (mresp.members.getD []).map fun m' => localPart m'.email }, ?_, rfl, rfl, ?_⟩
    · have := mem_groupBlock_group url g (mresp.members.getD [])
      simp only [List.mem_append]
      exact Or.inr (Or.inl this)
    · exact List.mem_map_of_mem (fun m' => localPart m'.email) hm

/-- Witness for C2: the member `jdoe@example.com` of `g1` yields user `jdoe`
with memberOf `group-one`, appended to the group entity's members. -/
theorem c2_member_user_entity_witness :
    fetchPhase st0 cfg0 api0 =
      ([ApiCall.groupsList "cust" none], Except.ok (some [g1, g2], "url0")) ∧
    (run st0 cfg0 api0).outcome = Except.ok () ∧
    g1 ∈ survivors cfg0 (some [g1, g2]) ∧
    api0.membersList "gid1" = Except.ok { members := some [m1] } ∧
    m1 ∈ ({ members := some [m1] } : MembersListResponse).members.getD [] ∧
    ((buildUserEntity "url0" (kebabCase g1.name) m1).name = localPart m1.email ∧
      (buildUserEntity "url0" (kebabCase g1.name) m1).memberOf = [kebabCase g1.name] ∧
      Entity.user (buildUserEntity "url0" (kebabCase g1.name) m1) ∈ (run st0 cfg0 api0).entities ∧
      ∃ ge : GroupEntityData, Entity.group ge ∈ (run st0 cfg0 api0).entities ∧
        ge.uid = g1.id ∧ ge.name = kebabCase g1.name ∧
        (buildUserEntity "url0" (kebabCase g1.name) m1).name ∈ ge.members) :=
  ⟨rfl, rfl, by decide, rfl, by decide,
    c2_member_user_entity st0 cfg0 api0 [ApiCall.groupsList "cust" none] (some [g1, g2]) "url0"
      g1 { members := some [m1] } m1 rfl rfl (by decide) rfl (by decide)⟩

/-- Claim C3 counterexample: under query list ["a","b"], group `g1` is
returned by the first listing call, whose resolved URL is "urlA", yet the
emitted entities carry annotations derived from the second (last) call's URL
"urlB" — so the annotations are not derived from the call that produced the
entity's group. -/
theorem c3_producing_call_counterexample :
    cfgQ.query = some ["a", "b"] ∧
    api0.groupsList "cust" (some "a") =
      Except.ok { groups := some [g1], responseURL := "urlA" } ∧
    api0.groupsList "cust" (some "b") =
      Except.ok { groups := none, responseURL := "urlB" } ∧
    (run st0 cfgQ api0).outcome = Except.ok () ∧
    (run st0 cfgQ api0).entities =
      [Entity.user (buildUserEntity "urlB" (kebabCase g1.name) m1),
        Entity.group { buildGroupEntity "urlB" g1 with members := [localPart m1.email] }] ∧
    (Entity.group { buildGroupEntity "urlB" g1 with
      members := [localPart m1.email] }).location = "ggroups:urlB" ∧
    "ggroups:urlB" ≠ "ggroups:urlA" :=
  ⟨rfl, rfl, rfl, rfl, by decide, rfl, by decide⟩

/-- Claim C3 (amended): every entity emitted by run carries equal location
and origin-location annotations, both equal to "ggroups:" followed by the
resolved request URL of the LAST group-listing call of the run's fetch phase;
with a single listing call (no query list, or one query expression) this is
the URL of the call that produced the entity's group, but under multiple
query expressions it is always the final call's URL. -/
theorem c3_last_listing_call_url (st : ProviderState) (cfg : ProviderConfig) (api : DirectoryApi)
    (calls : List ApiCall) (gg : Option (List RemoteGroup)) (url : String) (e : Entity)
    (hf : fetchPhase st cfg api = (calls, Except.ok (gg, url)))
    (he : e ∈ (run st cfg api).entities) :
    e.location = "ggroups:" ++ url ∧ e.originLocation = "ggroups:" ++ url := by
  rw [run_fetch_ok st cfg api calls gg url hf, finish_entities] at he
  obtain ⟨g, _, resp, _, hb⟩ := processGroups_entity_src api url (survivors cfg gg) e he
  exact groupBlock_location url g (resp.members.getD []) e hb

/-- Witness for the amended C3: the entity produced for `g1` under the
two-query fixture carries both annotations "ggroups:urlB". -/
theorem c3_last_listing_call_url_witness :
    fetchPhase st0 cfgQ api0 =
      ([ApiCall.groupsList "cust" (some "a"), ApiCall.groupsList "cust" (some "b")],
        Except.ok (some [g1], "urlB")) ∧
    Entity.user (buildUserEntity "urlB" (kebabCase g1.name) m1) ∈ (run st0 cfgQ api0).entities ∧
    ((Entity.user (buildUserEntity "urlB" (kebabCase g1.name) m1)).location = "ggroups:" ++ "urlB" ∧
      (Entity.user (buildUserEntity "urlB" (kebabCase g1.name) m1)).originLocation =
        "ggroups:" ++ "urlB") :=
  ⟨rfl, by decide,
    c3_last_listing_call_url st0 cfgQ api0
      [ApiCall.groupsList "cust" (some "a"), ApiCall.groupsList "cust" (some "b")]
      (some [g1]) "urlB" (Entity.user (buildUserEntity "urlB" (kebabCase g1.name) m1))
      rfl (by decide)⟩

/-- Claim C4: with a non-empty query list whose listing calls all succeed,
run issues exactly one group-listing call per query expression, each carrying
its query string, in the list's order (and no other group-listing call); the
fetched group sequence is the concatenation, in call order, of each call's
groups array (a response with no groups field contributing nothing), with no
deduplication across queries. -/
theorem c4_query_calls_concat (st : ProviderState) (cfg : ProviderConfig) (api : DirectoryApi)
    (customerId : String) (qs : List String)
    (h1 : st.connected = true) (h2 : st.clientReady = true)
    (h3 : cfg.customerId = some customerId) (h4 : cfg.groups = none)
    (h5 : cfg.query = some qs) (h6 : qs ≠ [])
    (hok : ∀ q ∈ qs, ∃ resp, api.groupsList customerId (some q) = Except.ok resp) :
    (run st cfg api).calls.filter ApiCall.isGroupsList =
      qs.map (fun q => ApiCall.groupsList customerId (some q)) ∧
    ∃ url, fetchPhase st cfg api =
      (qs.map (fun q => ApiCall.groupsList customerId (some q)),
        Except.ok (some (qs.map (queryGroups api customerId)).flatten, url)) := by
  obtain ⟨lastUrl, haux⟩ := fetchGroupsQueryAux_allok api customerId qs [] "" hok
  have hfp : fetchPhase st cfg api =
      (qs.map (fun q => ApiCall.groupsList customerId (some q)),
        Except.ok (some (qs.map (queryGroups api customerId)).flatten, lastUrl)) := by
    rw [fetchPhase_query st cfg api customerId qs h1 h2 h3 h4 h5 h6, haux]
    simp
  have hrun := run_fetch_ok st cfg api _ _ _ hfp
  refine ⟨?_, lastUrl, hfp⟩
  rw [hrun, finish_calls, List.filter_append, filter_isGroupsList_map,
    processGroups_no_groupsList, List.append_nil]

/-- Witness for C4: the two-query fixture issues exactly the calls for "a"
and "b" in order, and fetches the concatenation `[g1] ++ []`. -/
theorem c4_query_calls_concat_witness :
    cfgQ.query = some ["a", "b"] ∧
    (∀ q ∈ ["a", "b"], ∃ resp, api0.groupsList "cust" (some q) = Except.ok resp) ∧
    ((run st0 cfgQ api0).calls.filter ApiCall.isGroupsList =
      ["a", "b"].map (fun q => ApiCall.groupsList "cust" (some q)) ∧
    ∃ url, fetchPhase st0 cfgQ api0 =
      (["a", "b"].map (fun q => ApiCall.groupsList "cust" (some q)),
        Except.ok (some (["a", "b"].map (queryGroups api0 "cust")).flatten, url))) := by
  have hok : ∀ q ∈ ["a", "b"], ∃ resp, api0.groupsList "cust" (some q) = Except.ok resp := by
    intro q hq
    rcases List.mem_cons.mp hq with rfl | hq
    · exact ⟨_, rfl⟩
    · rcases List.mem_cons.mp hq with rfl | hq
      · exact ⟨_, rfl⟩
      · cases hq
  exact ⟨rfl, hok,
    c4_query_calls_concat st0 cfgQ api0 "cust" ["a", "b"] rfl rfl rfl rfl rfl (by decide) hok⟩

/-- Claim C5: any configuration with both the groups allow-list and the query
list present, or with a present-but-empty query list, makes run throw an
error before any remote directory API call is issued — the call trace is
empty and the run fails, for every provider state and directory service. -/
theorem c5_invalid_config_no_calls (st : ProviderState) (cfg : ProviderConfig)
    (api : DirectoryApi)
    (h : (cfg.groups.isSome ∧ cfg.query.isSome) ∨ cfg.query = some []) :
    (run st cfg api).calls = [] ∧ (run st cfg api).succeeded = false := by
  obtain ⟨e, hf⟩ : ∃ e, fetchPhase st cfg api = ([], Except.error e) := by
    unfold fetchPhase
    cases hsc : st.connected with
    | false => exact ⟨RunError.connectionNotInitialized, by simp⟩
    | true =>
      cases hcr : st.clientReady with
      | false => exact ⟨RunError.clientNotInitialized, by simp⟩
      | true =>
        cases hid : cfg.customerId with
        | none => exact ⟨RunError.customerIdConfigError, by simp⟩
        | some customerId =>
          by_cases hboth : cfg.groups.isSome ∧ cfg.query.isSome
          · exact ⟨RunError.groupsAndQueryBothDefined, by simp [hboth]⟩
          · have hq : cfg.query = some [] := by
              rcases h with hgq | hq
              · exact absurd hgq hboth
              · exact hq
            have hgn : cfg.groups = none := by
              cases hgo : cfg.groups with
              | none => rfl
              | some l => exact absurd ⟨by simp [hgo], by simp [hq]⟩ hboth
            exact ⟨RunError.emptyQueryArray, by simp [hgn, hq]⟩
  rw [run_fetch_error st cfg api [] e hf]
  exact ⟨rfl, rfl⟩

/-- Witness for C5: with both lists configured the run issues no call and
fails. -/
theorem c5_invalid_config_no_calls_witness :
    ((cfgBoth.groups.isSome ∧ cfgBoth.query.isSome) ∨ cfgBoth.query = some []) ∧
    ((run st0 cfgBoth api0).calls = [] ∧ (run st0 cfgBoth api0).succeeded = false) :=
  ⟨by decide, c5_invalid_config_no_calls st0 cfgBoth api0 (by decide)⟩

/-- Claim C6: with the allow-list present, the surviving group sequence is
exactly the fetched sequence filtered, order preserved, to groups whose email
appears in the allow-list; moreover every entity in the run's output and
every entity inside every sink mutation stems from a surviving group (one
whose email the allow-list contains), so groups with absent addresses never
contribute entities to the output or to the mutation. -/
theorem c6_allowlist_filter (st : ProviderState) (cfg : ProviderConfig) (api : DirectoryApi)
    (calls : List ApiCall) (gg : Option (List RemoteGroup)) (url : String)
    (allow : List String)
    (hf : fetchPhase st cfg api = (calls, Except.ok (gg, url)))
    (hallow : cfg.groups = some allow) :
    survivors cfg gg = (gg.getD []).filter (fun g => allow.contains g.email) ∧
    (∀ e ∈ (run st cfg api).entities, ∃ g, g ∈ survivors cfg gg ∧
      allow.contains g.email = true ∧
      ∃ resp, api.membersList g.id = Except.ok resp ∧
        e ∈ groupBlock url g (resp.members.getD [])) ∧
    (∀ mu ∈ (run st cfg api).mutations, ∀ p ∈ mu.entities, ∃ g, g ∈ survivors cfg gg ∧
      allow.contains g.email = true ∧
      ∃ resp, api.membersList g.id = Except.ok resp ∧
        p.1 ∈ groupBlock url g (resp.members.getD [])) := by
  have hsurv : survivors cfg gg = (gg.getD []).filter (fun g => allow.contains g.email) := by
    cases gg <;> simp [survivors, hallow]
  have hrun := run_fetch_ok st cfg api calls gg url hf
  have hsrc : ∀ e ∈ (run st cfg api).entities, ∃ g, g ∈ survivors cfg gg ∧
      allow.contains g.email = true ∧
      ∃ resp, api.membersList g.id = Except.ok resp ∧
        e ∈ groupBlock url g (resp.members.getD []) := by
    intro e he
    rw [hrun, finish_entities] at he
    obtain ⟨g, hg, resp, hr, hb⟩ := processGroups_entity_src api url (survivors cfg gg) e he
    have hmem : allow.contains g.email = true := by
      rw [hsurv] at hg
      simpa using (List.mem_filter.mp hg).2
    exact ⟨g, hg, hmem, resp, hr, hb⟩
  refine ⟨hsurv, hsrc, ?_⟩
  intro mu hmu p hp
  rw [hrun] at hmu
  rcases hpo : (processGroups api url (survivors cfg gg)).2.2 with _ | e
  · have hmut := finish_mutations_ok calls cfg gg url api hpo
    rw [hmut] at hmu
    by_cases hemp : (processGroups api url (survivors cfg gg)).2.1.isEmpty
    · rw [if_pos hemp] at hmu
      cases hmu
    · rw [if_neg hemp] at hmu
      rcases List.mem_singleton.mp hmu with rfl
      simp only [List.mem_map] at hp
      obtain ⟨e, he, rfl⟩ := hp
      exact hsrc e (by rw [hrun, finish_entities]; exact he)
  · have hmut := finish_mutations_err calls cfg gg url api e hpo
    rw [hmut] at hmu
    cases hmu

/-- Witness for C6: with allow-list ["g1@x.com"], survivors keep only `g1`
out of the two fetched groups, and all run output stems from it. -/
theorem c6_allowlist_filter_witness :
    fetchPhase st0 cfgA api0 =
      ([ApiCall.groupsList "cust" none], Except.ok (some [g1, g2], "url0")) ∧
    cfgA.groups = some ["g1@x.com"] ∧
    (survivors cfgA (some [g1, g2]) =
        ((some [g1, g2] : Option (List RemoteGroup)).getD []).filter
          (fun g => ["g1@x.com"].contains g.email) ∧
    (∀ e ∈ (run st0 cfgA api0).entities, ∃ g, g ∈ survivors cfgA (some [g1, g2]) ∧
      ["g1@x.com"].contains g.email = true ∧
      ∃ resp, api0.membersList g.id = Except.ok resp ∧
        e ∈ groupBlock "url0" g (resp.members.getD [])) ∧
    (∀ mu ∈ (run st0 cfgA api0).mutations, ∀ p ∈ mu.entities,
      ∃ g, g ∈ survivors cfgA (some [g1, g2]) ∧
      ["g1@x.com"].contains g.email = true ∧
      ∃ resp, api0.membersList g.id = Except.ok resp ∧
        p.1 ∈ groupBlock "url0" g (resp.members.getD []))) :=
  ⟨rfl, rfl,
    c6_allowlist_filter st0 cfgA api0 [ApiCall.groupsList "cust" none] (some [g1, g2]) "url0"
      ["g1@x.com"] rfl rfl⟩

/-- Claim C7: with neither allow-list nor query list, a successful listing
returning N groups and every member fetch succeeding, run returns normally,
issues exactly one group-listing call (followed only by one members call per
group), and produces exactly N GroupEntities — one per returned group, with
matching uids in order. -/
theorem c7_single_call_all_groups (st : ProviderState) (cfg : ProviderConfig)
    (api : DirectoryApi) (customerId : String) (resp : GroupsListResponse)
    (gs : List RemoteGroup)
    (h1 : st.connected = true) (h2 : st.clientReady = true)
    (h3 : cfg.customerId = some customerId) (h4 : cfg.groups = none) (h5 : cfg.query = none)
    (hresp : api.groupsList customerId none = Except.ok resp)
    (hgs : resp.groups = some gs)
    (hmem : ∀ g ∈ gs, ∃ mresp, api.membersList g.id = Except.ok mresp) :
    (run st cfg api).outcome = Except.ok () ∧
    (run st cfg api).calls =
      ApiCall.groupsList customerId none :: gs.map (fun g => ApiCall.membersList g.id) ∧
    ((run st cfg api).entities.filter Entity.isGroup).map Entity.uid =
      gs.map RemoteGroup.id ∧
    ((run st cfg api).entities.filter Entity.isGroup).length = gs.length := by
  have hfp : fetchPhase st cfg api =
      ([ApiCall.groupsList customerId none], Except.ok (some gs, resp.responseURL)) := by
    rw [fetchPhase_direct st cfg api customerId h1 h2 h3 h5, hresp]
    simp [hgs]
  have hrun := run_fetch_ok st cfg api _ _ _ hfp
  have hsurv : survivors cfg (some gs) = gs := by simp [survivors, h4]
  obtain ⟨hcalls, herr⟩ := processGroups_allok api resp.responseURL gs hmem
  have huids := processGroups_group_uids api resp.responseURL gs herr
  refine ⟨?_, ?_, ?_, ?_⟩
  · rw [hrun]
    exact (finish_outcome_ok _ _ _ _ _).mpr (by rw [hsurv]; exact herr)
  · rw [hrun, finish_calls, hsurv, hcalls]
    rfl
  · rw [hrun, finish_entities, hsurv]
    exact huids
  · rw [hrun, finish_entities, hsurv]
    have hlen := congrArg List.length huids
    simpa using hlen

/-- Witness for C7: the two-group fixture issues one listing call, two member
calls, and yields two group entities with uids gid1, gid2. -/
theorem c7_single_call_all_groups_witness :
    api0.groupsList "cust" none =
      Except.ok { groups := some [g1, g2], responseURL := "url0" } ∧
    ((run st0 cfg0 api0).outcome = Except.ok () ∧
    (run st0 cfg0 api0).calls =
      ApiCall.groupsList "cust" none :: [g1, g2].map (fun g => ApiCall.membersList g.id) ∧
    ((run st0 cfg0 api0).entities.filter Entity.isGroup).map Entity.uid =
      [g1, g2].map RemoteGroup.id ∧
    ((run st0 cfg0 api0).entities.filter Entity.isGroup).length = [g1, g2].length) := by
  have hmem : ∀ g ∈ [g1, g2], ∃ mresp, api0.membersList g.id = Except.ok mresp := by
    intro g hg
    rcases List.mem_cons.mp hg with rfl | hg
    · exact ⟨_, rfl⟩
    · rcases List.mem_cons.mp hg with rfl | hg
      · exact ⟨_, rfl⟩
      · cases hg
  exact ⟨rfl,
    c7_single_call_all_groups st0 cfg0 api0 "cust"
      { groups := some [g1, g2], responseURL := "url0" } [g1, g2]
      rfl rfl rfl rfl rfl rfl rfl hmem⟩

/-- Claim C8: every run that terminates by throwing — a lifecycle
precondition failure, a configuration failure, or a directory API failure at
any point (fetch or the per-group loop) — never invokes the sink: its
mutation list is empty, so entities built before the failure are discarded
and a failed run submits no mutation. -/
theorem c8_failed_run_no_mutation (st : ProviderState) (cfg : ProviderConfig)
    (api : DirectoryApi)
    (h : (run st cfg api).succeeded = false) :
    (run st cfg api).mutations = [] := by
  rcases hf : fetchPhase st cfg api with ⟨calls, r⟩
  cases r with
  | error e => rw [run_fetch_error st cfg api calls e hf]
  | ok p =>
    rcases p with ⟨gg, url⟩
    have hrun := run_fetch_ok st cfg api calls gg url hf
    rw [hrun] at h ⊢
    rcases hpo : (processGroups api url (survivors cfg gg)).2.2 with _ | e
    · have hok : (finish calls cfg gg url api).outcome = Except.ok () :=
        (finish_outcome_ok calls cfg gg url api).mpr hpo
      rw [RunResult.succeeded, hok] at h
      cases h
    · exact finish_mutations_err calls cfg gg url api e hpo

/-- Witness for C8: a run whose second member fetch fails has built entities
for the first group, yet applies no mutation. -/
theorem c8_failed_run_no_mutation_witness :
    (run st0 cfg0 apiFail).succeeded = false ∧
    (run st0 cfg0 apiFail).entities ≠ [] ∧
    (run st0 cfg0 apiFail).mutations = [] :=
  ⟨rfl, by decide, c8_failed_run_no_mutation st0 cfg0 apiFail rfl⟩

/-- Claim C9: with no query list configured, a group-listing response that
carries no groups field does not make run throw: the group sequence is
treated as empty, the per-group loop runs zero times (the one listing call is
the whole trace), and the run returns normally without invoking the sink. -/
theorem c9_missing_groups_field (st : ProviderState) (cfg : ProviderConfig)
    (api : DirectoryApi) (customerId : String) (resp : GroupsListResponse)
    (h1 : st.connected = true) (h2 : st.clientReady = true)
    (h3 : cfg.customerId = some customerId) (h5 : cfg.query = none)
    (hresp : api.groupsList customerId none = Except.ok resp)
    (hng : resp.groups = none) :
    (run st cfg api).outcome = Except.ok () ∧
    (run st cfg api).entities = [] ∧
    (run st cfg api).mutations = [] ∧
    (run st cfg api).calls = [ApiCall.groupsList customerId none] := by
  have hfp : fetchPhase st cfg api =
      ([ApiCall.groupsList customerId none], Except.ok (none, resp.responseURL)) := by
    rw [fetchPhase_direct st cfg api customerId h1 h2 h3 h5, hresp]
    simp [hng]
  have hrun := run_fetch_ok st cfg api _ _ _ hfp
  have hsurv : survivors cfg none = [] := by
    cases hg : cfg.groups <;> simp [survivors, hg]
  rw [hrun]
  refine ⟨?_, ?_, ?_, ?_⟩ <;> simp [finish, hsurv, processGroups]

/-- Witness for C9: the fixture whose responses carry no groups field yields
a normal, sink-free, single-call run. -/
theorem c9_missing_groups_field_witness :
    apiNoGroups.groupsList "cust" none =
      Except.ok { groups := none, responseURL := "urlN" } ∧
    ((run st0 cfg0 apiNoGroups).outcome = Except.ok () ∧
    (run st0 cfg0 apiNoGroups).entities = [] ∧
    (run st0 cfg0 apiNoGroups).mutations = [] ∧
    (run st0 cfg0 apiNoGroups).calls = [ApiCall.groupsList "cust" none]) :=
  ⟨rfl,
    c9_missing_groups_field st0 cfg0 apiNoGroups "cust"
      { groups := none, responseURL := "urlN" } rfl rfl rfl rfl rfl rfl⟩

/-- Claim C10: a present-but-empty allow-list still triggers the filter:
every fetched group is filtered out, no entities are produced, the run
returns normally, and the sink is never invoked — a guaranteed no-op sync
rather than an all-groups sync. -/
theorem c10_empty_allowlist_noop (st : ProviderState) (cfg : ProviderConfig)
    (api : DirectoryApi) (customerId : String) (resp : GroupsListResponse)
    (h1 : st.connected = true) (h2 : st.clientReady = true)
    (h3 : cfg.customerId = some customerId) (h4 : cfg.groups = some [])
    (h5 : cfg.query = none)
    (hresp : api.groupsList customerId none = Except.ok resp) :
    survivors cfg resp.groups = [] ∧
    (run st cfg api).outcome = Except.ok () ∧
    (run st cfg api).entities = [] ∧
    (run st cfg api).mutations = [] := by
  have hfp : fetchPhase st cfg api =
      ([ApiCall.groupsList customerId none], Except.ok (resp.groups, resp.responseURL)) := by
    rw [fetchPhase_direct st cfg api customerId h1 h2 h3 h5, hresp]
  have hrun := run_fetch_ok st cfg api _ _ _ hfp
  have hsurv : survivors cfg resp.groups = [] := by
    cases hg : resp.groups with
    | none => simp [survivors, h4, hg]
    | some gs =>
      simp only [survivors, h4, hg, Option.map_some, Option.getD_some]
      exact List.filter_eq_nil_iff.mpr fun g _ => by simp
  rw [hrun]
  refine ⟨hsurv, ?_, ?_, ?_⟩ <;> simp [finish, hsurv, processGroups]

/-- Witness for C10: the empty allow-list fixture filters out both fetched
groups and produces a sink-free normal run. -/
theorem c10_empty_allowlist_noop_witness :
    cfgEmptyAllow.groups = some [] ∧
    api0.groupsList "cust" none =
      Except.ok { groups := some [g1, g2], responseURL := "url0" } ∧
    (survivors cfgEmptyAllow
        ({ groups := some [g1, g2], responseURL := "url0" } : GroupsListResponse).groups = [] ∧
    (run st0 cfgEmptyAllow api0).outcome = Except.ok () ∧
    (run st0 cfgEmptyAllow api0).entities = [] ∧
    (run st0 cfgEmptyAllow api0).mutations = []) :=
  ⟨rfl, rfl,
    c10_empty_allowlist_noop st0 cfgEmptyAllow api0 "cust"
      { groups := some [g1, g2], responseURL := "url0" } rfl rfl rfl rfl rfl rfl⟩

end GGroups
